import Mathlib

/-!
The pseudo character device `pseudo_class.c`.

A shallow embedding of
`practise/linux/kernel_programming/pseudo_driver/reference/pseudo_class.c`:
the bounded read/write path over the module buffer (`plp_kmem_read`,
`plp_kmem_write`) and the module lifecycle (`plp_kmem_init`, `plp_kmem_exit`).

Conventions of the embedding

* `loff_t` and `ssize_t` values are `Int`, `size_t` values are `Nat`, all three
  64 bits wide as on an LP64 kernel; every conversion between the signed and
  the unsigned 64-bit world is written out with `toU64` and `toS64`.
* The macro `PLP_KMEM_BUFSIZE` is passed to the two I/O functions as their first
  argument `BUFSIZE`; the source fixes it to `PLP_KMEM_BUFSIZE = 1024*1024`.
* A call that dereferences a null pointer, or whose `memcpy` leaves the region
  `plp_kmem_buffer` points to, has no defined result: the embedding returns
  `none` there.
* What the kernel decides (whether `kmalloc` succeeds, how much of the user
  region is accessible, what the character-device layer answers) is an
  explicit argument of the call.
-/

namespace PseudoClass

/-! ## Machine integers -/

/-- The value of an integer after conversion to a 64-bit unsigned type
(`size_t`, `unsigned long long`). -/
def toU64 (x : Int) : Nat := (x % 2 ^ 64).toNat

/-- The value of an integer after conversion to a 64-bit signed type
(`loff_t`, `ssize_t`), two's complement. -/
def toS64 (x : Int) : Int := (x + 2 ^ 63) % 2 ^ 64 - 2 ^ 63

/-- The buffer size of the source: `#define PLP_KMEM_BUFSIZE (1024*1024)`. -/
def PLP_KMEM_BUFSIZE : Nat := 1024 * 1024

/-- Errno `ENOMEM` of the kernel headers (out of memory). -/
def ENOMEM : Int := 12

/-- Errno `EFAULT` of the kernel headers (bad address). -/
def EFAULT : Int := 14

/-- Errno `ENOSPC` of the kernel headers (no space left on device). -/
def ENOSPC : Int := 28

/-! ## Module state -/

/-- The globals of the module together with the part of the kernel state the
module acts on (the heap block of `my_dev`, the character-device number table
and the cdev map). -/
structure Module where
  /-- Module parameter `int ndevices`. -/
  ndevices : Int
  /-- Region `static char *plp_kmem_buffer` points to; `none` is the null pointer. -/
  plp_kmem_buffer : Option (List UInt8)
  /-- Value of `static dev_t plp_kmem_dev`. -/
  plp_kmem_dev : Nat
  /-- Whether `pseudo_class` holds a created class. -/
  pseudo_class : Bool
  /-- Whether `device_create` has published `pseudo_dev0`. -/
  device_created : Bool
  /-- Whether the block `my_dev` points to is allocated (obtained from
  `kmalloc` and not yet passed to `kfree`). -/
  my_dev : Bool
  /-- Number of nodes linked on `dev_list`. -/
  dev_list : Nat
  /-- Device numbers currently held in the character-device number table. -/
  chrdev_ids : List Nat
  /-- Whether `my_dev->cdev` is registered in the cdev map. -/
  cdev_registered : Bool
  /-- Number of `cdev_add` calls that registered a device. -/
  cdev_add_calls : Nat
  /-- Number of `cdev_del` calls. -/
  cdev_del_calls : Nat
deriving DecidableEq

/-- The state at module load: the statics of the source are zero-initialised
(`plp_kmem_buffer`, `pseudo_class`, `plp_kmem_dev`, `my_dev` are null or zero,
`dev_list` is empty) and `ndevices` carries the module parameter. -/
def Module.load (ndevices : Int) : Module :=
  { ndevices := ndevices
    plp_kmem_buffer := none
    plp_kmem_dev := 0
    pseudo_class := false
    device_created := false
    my_dev := false
    dev_list := 0
    chrdev_ids := []
    cdev_registered := false
    cdev_add_calls := 0
    cdev_del_calls := 0 }

/-! ## Memory copies -/

/-- The bytes `memcpy(data, base + off, n)` reads: `n` bytes of the region at
offset `off`. There is no defined result when `base` is null or the range
`[off, off + n)` is not inside the region. -/
def memcpy_from (base : Option (List UInt8)) (off : Int) (n : Nat) : Option (List UInt8) :=
  match base with
  | none => none
  | some b =>
    if 0 ≤ off ∧ off + n ≤ b.length then some ((b.drop off.toNat).take n) else none

/-- The region after `memcpy(base + off, data, n)` with `n = data.length`.
There is no defined result when `base` is null or the range
`[off, off + n)` is not inside the region. -/
def memcpy_to (base : Option (List UInt8)) (off : Int) (data : List UInt8) :
    Option (List UInt8) :=
  match base with
  | none => none
  | some b =>
    if 0 ≤ off ∧ off + data.length ≤ b.length then
      some (b.take off.toNat ++ data ++ b.drop (off.toNat + data.length))
    else none

/-- Return value of `copy_to_user(buf, data, n)` with `n = data.length`, the
number of bytes that could not be copied, when the first `ulen` bytes at `buf`
are writable user memory. -/
def copy_to_user (ulen : Nat) (data : List UInt8) : Nat := data.length - ulen

/-- The bytes `copy_from_user(data, buf, n)` receives when `ubuf` is the
readable user memory at `buf`; `none` when the call returns non-zero (fewer
than `n` bytes are readable). -/
def copy_from_user (ubuf : List UInt8) (n : Nat) : Option (List UInt8) :=
  if n ≤ ubuf.length then some (ubuf.take n) else none

/-! ## The I/O path -/

/-- What one `read` or `write` call leaves behind. -/
structure IoResult where
  /-- The `ssize_t` return value. -/
  ret : Int
  /-- The module state after the call. -/
  module : Module
  /-- The value of `*ppos` after the call. -/
  ppos : Int
  /-- The bytes stored into the user buffer (always empty for `write`). -/
  user : List UInt8
deriving DecidableEq

/-- The transfer length both functions compute (lines 114-115 and 168-169):
`if (fpos+bytes >= PLP_KMEM_BUFSIZE) bytes = PLP_KMEM_BUFSIZE-fpos;`.
The sum is formed in `unsigned long long`, the difference is converted to
`size_t`. -/
def clamp (BUFSIZE : Nat) (fpos : Int) (bytes : Nat) : Nat :=
  if (toU64 fpos + bytes) % 2 ^ 64 ≥ BUFSIZE then toU64 ((BUFSIZE : Int) - fpos) else bytes

/-- The function `plp_kmem_read`. `kmalloc_ok` tells whether the `kmalloc` of
the transfer buffer succeeds, `ulen` is the number of writable bytes at the
user pointer `buf`. -/
def plp_kmem_read (BUFSIZE : Nat) (m : Module) (kmalloc_ok : Bool) (ulen : Nat)
    (count : Nat) (ppos : Int) : Option IoResult :=
  let bytes := count
  let fpos := ppos
  if fpos ≥ (BUFSIZE : Int) then some ⟨0, m, ppos, []⟩
  else
    let bytes := clamp BUFSIZE fpos bytes
    if !kmalloc_ok then some ⟨-ENOMEM, m, ppos, []⟩
    else
      match memcpy_from m.plp_kmem_buffer fpos bytes with
      | none => none
      | some data =>
        if copy_to_user ulen data ≠ 0 then some ⟨-EFAULT, m, ppos, data.take ulen⟩
        else some ⟨toS64 bytes, m, toS64 (fpos + bytes), data⟩

/-- The function `plp_kmem_write`. `kmalloc_ok` tells whether the `kmalloc` of
the transfer buffer succeeds, `ubuf` is the readable user memory at the user
pointer `buf`. -/
def plp_kmem_write (BUFSIZE : Nat) (m : Module) (kmalloc_ok : Bool) (ubuf : List UInt8)
    (count : Nat) (ppos : Int) : Option IoResult :=
  let bytes := count
  let fpos := ppos
  if fpos ≥ (BUFSIZE : Int) then some ⟨-ENOSPC, m, ppos, []⟩
  else
    let bytes := clamp BUFSIZE fpos bytes
    if !kmalloc_ok then some ⟨-ENOMEM, m, ppos, []⟩
    else
      match copy_from_user ubuf bytes with
      | none => some ⟨-EFAULT, m, ppos, []⟩
      | some data =>
        match memcpy_to m.plp_kmem_buffer fpos data with
        | none => none
        | some b => some ⟨toS64 bytes, { m with plp_kmem_buffer := some b }, toS64 (fpos + bytes), []⟩

/-! ## The lifecycle -/

/-- Modelled from the spec: the registration surface's
`allocate_identity_block(count)`, the kernel's `alloc_chrdev_region`, which is
not part of the repository. On success with first number `dev` the table gains
the `count` numbers `dev, dev+1, ..., dev+count-1`. -/
def chrdev_alloc (ids : List Nat) (dev count : Nat) : List Nat :=
  ids ++ List.range' dev count

/-- Modelled from the spec: the registration surface's
`release_identity_block(range)`, the kernel's
`unregister_chrdev_region(from, count)`, which is not part of the repository.
It releases the `count` numbers starting at `dev`. -/
def unregister_chrdev_region (ids : List Nat) (dev count : Nat) : List Nat :=
  ids.filter (fun d => !(decide (dev ≤ d) && decide (d < dev + count)))

/-- What the kernel answers during `plp_kmem_init`. -/
structure InitEnv where
  /-- Whether `kmalloc(sizeof(C_OBJ), GFP_KERNEL)` returns a block. -/
  kmalloc_ok : Bool
  /-- Answer of `alloc_chrdev_region`: `none` for a failure, `some dev` for
  success with first device number `dev`. -/
  alloc_chrdev_region : Option Nat
  /-- Whether `cdev_add` succeeds. -/
  cdev_add_ok : Bool
  /-- Whether `class_create` returns a class rather than an error pointer. -/
  class_create_ok : Bool
deriving DecidableEq

/-- The function `plp_kmem_init`: the `int` it returns and the state it
leaves. There is no defined result when `kmalloc` returns null (the
`list_add_tail` that follows writes through `my_dev`) and when `class_create`
fails (the source then calls `cdev_del(plp_kmem_cdev)`, and `plp_kmem_cdev` is
a static that no statement assigns, so it is null). The third argument of
`alloc_chrdev_region` is `unsigned`, so `ndevices` is converted. -/
def plp_kmem_init (e : InitEnv) (m : Module) : Option (Int × Module) :=
  if !e.kmalloc_ok then none
  else
    let m := { m with my_dev := true, dev_list := m.dev_list + 1 }
    match e.alloc_chrdev_region with
    | none => some (1, m)
    | some dev =>
      let m := { m with
        plp_kmem_dev := dev
        chrdev_ids := chrdev_alloc m.chrdev_ids dev (m.ndevices % 2 ^ 32).toNat }
      if !e.cdev_add_ok then
        let m := { m with chrdev_ids := unregister_chrdev_region m.chrdev_ids m.plp_kmem_dev 1 }
        let m := { m with my_dev := false }
        some (1, m)
      else
        let m := { m with cdev_registered := true, cdev_add_calls := m.cdev_add_calls + 1 }
        if !e.class_create_ok then none
        else
          let m := { m with pseudo_class := true }
          let m := { m with device_created := true }
          some (0, m)

/-- The function `plp_kmem_exit`. There is no defined result when `my_dev`
does not point to an allocated block (`cdev_del(&(my_dev->cdev))` reads
through it). -/
def plp_kmem_exit (m : Module) : Option Module :=
  if !m.my_dev then none
  else
    let m := { m with cdev_registered := false, cdev_del_calls := m.cdev_del_calls + 1 }
    let m := { m with chrdev_ids := unregister_chrdev_region m.chrdev_ids m.plp_kmem_dev 1 }
    let m := { m with my_dev := false }
    some m

/-- A module state whose buffer pointer refers to the region `b`. -/
def Module.withBuffer (b : List UInt8) : Module :=
  { Module.load 1 with plp_kmem_buffer := some b }

/-- The ten bytes `"HELLOWORLD"` of the specification's scenario. -/
def HELLOWORLD : List UInt8 := [72, 69, 76, 76, 79, 87, 79, 82, 76, 68]

/-- The scenario's state: a zero-filled Buffer Store of 16 bytes. -/
def scenario16 : Module := Module.withBuffer (List.replicate 16 0)

/-- The scenario's state after `"HELLOWORLD"` has been written at offset 0. -/
def scenario16_written : Module :=
  Module.withBuffer [72, 69, 76, 76, 79, 87, 79, 82, 76, 68, 0, 0, 0, 0, 0, 0]

/-- What the scenario's 10-byte write of `"HELLOWORLD"` at offset 10 leaves
behind: six bytes stored, cursor at 16. -/
def scenario16_clamped : IoResult :=
  ⟨6, Module.withBuffer [0, 0, 0, 0, 0, 0, 0, 0, 0, 0, 72, 69, 76, 76, 79, 87], 16, []⟩

/-- A module state whose buffer pointer refers to a zero-filled region of
`PLP_KMEM_BUFSIZE` bytes. -/
def zeroed : Module := Module.withBuffer (List.replicate PLP_KMEM_BUFSIZE 0)

/-- A kernel that grants everything `plp_kmem_init` asks for and hands out the
device numbers starting at `dev`. -/
def InitEnv.granting (dev : Nat) : InitEnv := ⟨true, some dev, true, true⟩

/-- What the scenario's write of `"HELLOWORLD"` at offset 0 leaves behind. -/
def scenario16_write : IoResult := ⟨10, scenario16_written, 10, []⟩

/-- What the scenario's read of 10 bytes at offset 0 after that write leaves
behind. -/
def scenario16_read : IoResult := ⟨10, scenario16_written, 10, HELLOWORLD⟩

/-! ## Facts about the machine integers -/

/-- A value inside the signed 64-bit range survives the conversion. -/
theorem toS64_of_range (x : Int) (h0 : -2 ^ 63 ≤ x) (h1 : x < 2 ^ 63) : toS64 x = x := by
  unfold toS64
  omega

/-- Without wrap-around the computed transfer length is the minimum of the
request and the room left behind the offset. -/
theorem clamp_eq_min (BUFSIZE : Nat) (fpos : Int) (count : Nat)
    (hcap : BUFSIZE < 2 ^ 64) (h0 : 0 ≤ fpos) (h1 : fpos < BUFSIZE)
    (hwrap : fpos + count < 2 ^ 64) :
    clamp BUFSIZE fpos count = min count (BUFSIZE - fpos.toNat) := by
  unfold clamp toU64
  have e1 : fpos % 2 ^ 64 = fpos := Int.emod_eq_of_lt h0 (by omega)
  have e2 : ((BUFSIZE : Int) - fpos) % 2 ^ 64 = (BUFSIZE : Int) - fpos :=
    Int.emod_eq_of_lt (by omega) (by omega)
  rw [e1, e2]
  have e3 : (fpos.toNat + count) % 2 ^ 64 = fpos.toNat + count := Nat.mod_eq_of_lt (by omega)
  rw [e3]
  split <;> omega

theorem clamp_nat (BUFSIZE o count : Nat) (hcap : BUFSIZE < 2 ^ 64) (ho : o < BUFSIZE)
    (hwrap : o + count < 2 ^ 64) :
    clamp BUFSIZE (o : Int) count = min count (BUFSIZE - o) := by
  have h := clamp_eq_min BUFSIZE (o : Int) count hcap (by omega) (by omega) (by omega)
  simpa using h

/-! ## Facts about a region after a copy into it -/

theorem splice_length (b data : List UInt8) (o : Nat) (h : o + data.length ≤ b.length) :
    (b.take o ++ data ++ b.drop (o + data.length)).length = b.length := by
  simp only [List.length_append, List.length_take, List.length_drop]
  omega

theorem splice_get_inside (b data : List UInt8) (o j : Nat) (h : o + data.length ≤ b.length)
    (hj : j < data.length) :
    (b.take o ++ data ++ b.drop (o + data.length))[o + j]? = data[j]? := by
  have hlen : (b.take o).length = o := by simp only [List.length_take]; omega
  rw [List.append_assoc, List.getElem?_append_right (by omega), hlen,
    List.getElem?_append_left (by omega)]
  congr 1
  omega

theorem splice_get_before (b data : List UInt8) (o i : Nat) (h : o + data.length ≤ b.length)
    (hi : i < o) :
    (b.take o ++ data ++ b.drop (o + data.length))[i]? = b[i]? := by
  have hlen : (b.take o).length = o := by simp only [List.length_take]; omega
  rw [List.append_assoc, List.getElem?_append_left (by omega), List.getElem?_take_of_lt hi]

theorem splice_get_after (b data : List UInt8) (o i : Nat) (h : o + data.length ≤ b.length)
    (hi : o + data.length ≤ i) :
    (b.take o ++ data ++ b.drop (o + data.length))[i]? = b[i]? := by
  have hlen : (b.take o ++ data).length = o + data.length := by
    simp only [List.length_append, List.length_take]; omega
  rw [List.getElem?_append_right (by omega), hlen, List.getElem?_drop]
  congr 1
  omega

theorem splice_read_back (b data : List UInt8) (o : Nat) (h : o + data.length ≤ b.length) :
    ((b.take o ++ data ++ b.drop (o + data.length)).drop o).take data.length = data := by
  have hlen : (b.take o).length = o := by simp only [List.length_take]; omega
  have key : ∀ l1 l2 l3 : List UInt8, ((l1 ++ l2 ++ l3).drop l1.length).take l2.length = l2 := by
    intro l1 l2 l3
    rw [List.append_assoc, List.drop_left, List.take_left]
  have hk := key (b.take o) data (b.drop (o + data.length))
  rw [hlen] at hk
  exact hk

/-! ## The two calls on their success path -/

/-- A read inside the buffer, with the transfer buffer allocated and room for
the transfer at the user pointer. -/
theorem read_ok (BUFSIZE : Nat) (m : Module) (b : List UInt8) (o count ulen : Nat)
    (hcap : BUFSIZE < 2 ^ 63) (hb : m.plp_kmem_buffer = some b) (hlen : b.length = BUFSIZE)
    (ho : o < BUFSIZE) (hwrap : o + count < 2 ^ 64) (hu : min count (BUFSIZE - o) ≤ ulen) :
    plp_kmem_read BUFSIZE m true ulen count (o : Int) =
      some ⟨((min count (BUFSIZE - o) : Nat) : Int), m, (o : Int) + (min count (BUFSIZE - o) : Nat),
        (b.drop o).take (min count (BUFSIZE - o))⟩ := by
  have hc : clamp BUFSIZE (o : Int) count = min count (BUFSIZE - o) :=
    clamp_nat BUFSIZE o count (by omega) ho hwrap
  have hnot : ¬ ((o : Int) ≥ (BUFSIZE : Int)) := by omega
  have hin : (0 : Int) ≤ (o : Int) ∧
      (o : Int) + ((min count (BUFSIZE - o) : Nat) : Int) ≤ (b.length : Int) := by
    omega
  have hcopy : copy_to_user ulen ((b.drop o).take (min count (BUFSIZE - o))) = 0 := by
    unfold copy_to_user
    simp only [List.length_take, List.length_drop]
    omega
  have hs1 : toS64 ((min count (BUFSIZE - o) : Nat) : Int) = ((min count (BUFSIZE - o) : Nat) : Int) :=
    toS64_of_range _ (by omega) (by omega)
  have hs2 : toS64 ((o : Int) + ((min count (BUFSIZE - o) : Nat) : Int)) =
      (o : Int) + ((min count (BUFSIZE - o) : Nat) : Int) :=
    toS64_of_range _ (by omega) (by omega)
  simp only [plp_kmem_read, hnot, if_false, hc, hb, memcpy_from, hin, and_self, if_true,
    Int.toNat_ofNat, hcopy, hs1, hs2, Bool.not_true, ne_eq, not_true_eq_false]
  rfl

/-- A write inside the buffer, with the transfer buffer allocated and the
bytes of the transfer readable at the user pointer. -/
theorem write_ok (BUFSIZE : Nat) (m : Module) (b ubuf : List UInt8) (o count : Nat)
    (hcap : BUFSIZE < 2 ^ 63) (hb : m.plp_kmem_buffer = some b) (hlen : b.length = BUFSIZE)
    (ho : o < BUFSIZE) (hwrap : o + count < 2 ^ 64)
    (hu : min count (BUFSIZE - o) ≤ ubuf.length) :
    plp_kmem_write BUFSIZE m true ubuf count (o : Int) =
      some ⟨((min count (BUFSIZE - o) : Nat) : Int),
        { m with plp_kmem_buffer := some (b.take o ++ ubuf.take (min count (BUFSIZE - o)) ++
            b.drop (o + min count (BUFSIZE - o))) },
        (o : Int) + (min count (BUFSIZE - o) : Nat), []⟩ := by
  have hc : clamp BUFSIZE (o : Int) count = min count (BUFSIZE - o) :=
    clamp_nat BUFSIZE o count (by omega) ho hwrap
  have hnot : ¬ ((o : Int) ≥ (BUFSIZE : Int)) := by omega
  have htl : (ubuf.take (min count (BUFSIZE - o))).length = min count (BUFSIZE - o) := by
    simp only [List.length_take]
    omega
  have hin : (o : Int) + ((min count (BUFSIZE - o) : Nat) : Int) ≤ (b.length : Int) := by
    omega
  have h0 : (0 : Int) ≤ (o : Int) := by omega
  have hs1 : toS64 ((min count (BUFSIZE - o) : Nat) : Int) = ((min count (BUFSIZE - o) : Nat) : Int) :=
    toS64_of_range _ (by omega) (by omega)
  have hs2 : toS64 ((o : Int) + ((min count (BUFSIZE - o) : Nat) : Int)) =
      (o : Int) + ((min count (BUFSIZE - o) : Nat) : Int) :=
    toS64_of_range _ (by omega) (by omega)
  simp only [plp_kmem_write, hnot, if_false, hc, hb, copy_from_user, hu, memcpy_to, h0, hin,
    and_self, if_true, Int.toNat_ofNat, hs1, hs2, Bool.not_true, htl, Bool.false_eq_true]

/-- Every defined result of a write over a buffer of `BUFSIZE` bytes is either
an error that leaves state and cursor alone, or the in-range transfer of the
computed length. -/
theorem write_cases (BUFSIZE : Nat) (m : Module) (b ubuf : List UInt8) (k : Bool)
    (count : Nat) (fpos : Int) (r : IoResult)
    (hcap : BUFSIZE < 2 ^ 63) (hb : m.plp_kmem_buffer = some b) (hlen : b.length = BUFSIZE)
    (h : plp_kmem_write BUFSIZE m k ubuf count fpos = some r) :
    (r.ret < 0 ∧ r.module = m ∧ r.ppos = fpos) ∨
    (0 ≤ fpos ∧ fpos < BUFSIZE ∧ k = true ∧ clamp BUFSIZE fpos count ≤ ubuf.length ∧
      fpos.toNat + clamp BUFSIZE fpos count ≤ BUFSIZE ∧
      r = ⟨((clamp BUFSIZE fpos count : Nat) : Int),
        { m with plp_kmem_buffer := some (b.take fpos.toNat ++
            ubuf.take (clamp BUFSIZE fpos count) ++
            b.drop (fpos.toNat + clamp BUFSIZE fpos count)) },
        fpos + ((clamp BUFSIZE fpos count : Nat) : Int), []⟩) := by
  unfold plp_kmem_write at h
  simp only [] at h
  generalize clamp BUFSIZE fpos count = n at h ⊢
  by_cases hge : fpos ≥ (BUFSIZE : Int)
  · rw [if_pos hge] at h
    cases h
    left
    exact ⟨(by show (-ENOSPC : Int) < 0; decide), rfl, rfl⟩
  · rw [if_neg hge] at h
    cases k
    · simp only [Bool.not_false, if_true] at h
      cases h
      left
      exact ⟨(by show (-ENOMEM : Int) < 0; decide), rfl, rfl⟩
    · simp only [Bool.not_true, Bool.false_eq_true, if_false, copy_from_user] at h
      by_cases hu : n ≤ ubuf.length
      · rw [if_pos hu] at h
        have htl : (ubuf.take n).length = n := by
          simp only [List.length_take]; omega
        simp only [hb, memcpy_to, htl] at h
        by_cases hin : 0 ≤ fpos ∧ fpos + (n : Int) ≤ (b.length : Int)
        · rw [if_pos hin] at h
          simp only [Option.some.injEq] at h
          right
          have hs1 : toS64 (n : Int) = (n : Int) := toS64_of_range _ (by omega) (by omega)
          have hs2 : toS64 (fpos + (n : Int)) = fpos + (n : Int) :=
            toS64_of_range _ (by omega) (by omega)
          rw [hs1, hs2] at h
          exact ⟨hin.1, by omega, rfl, hu, by omega, h.symm⟩
        · rw [if_neg hin] at h
          cases h
      · rw [if_neg hu] at h
        cases h
        left
        exact ⟨(by show (-EFAULT : Int) < 0; decide), rfl, rfl⟩

/-- Every defined result of a read over a buffer of `BUFSIZE` bytes is an
error, the end-of-device answer, or the in-range transfer of the computed
length. -/
theorem read_cases (BUFSIZE : Nat) (m : Module) (b : List UInt8) (k : Bool) (ulen : Nat)
    (count : Nat) (fpos : Int) (r : IoResult)
    (hcap : BUFSIZE < 2 ^ 63) (hb : m.plp_kmem_buffer = some b) (hlen : b.length = BUFSIZE)
    (h : plp_kmem_read BUFSIZE m k ulen count fpos = some r) :
    (r.ret < 0 ∧ r.module = m ∧ r.ppos = fpos) ∨
    ((BUFSIZE : Int) ≤ fpos ∧ r = ⟨0, m, fpos, []⟩) ∨
    (0 ≤ fpos ∧ fpos < BUFSIZE ∧ k = true ∧ clamp BUFSIZE fpos count ≤ ulen ∧
      fpos.toNat + clamp BUFSIZE fpos count ≤ BUFSIZE ∧
      r = ⟨((clamp BUFSIZE fpos count : Nat) : Int), m,
        fpos + ((clamp BUFSIZE fpos count : Nat) : Int),
        (b.drop fpos.toNat).take (clamp BUFSIZE fpos count)⟩) := by
  unfold plp_kmem_read at h
  simp only [] at h
  generalize clamp BUFSIZE fpos count = n at h ⊢
  by_cases hge : fpos ≥ (BUFSIZE : Int)
  · rw [if_pos hge] at h
    cases h
    right; left
    exact ⟨hge, rfl⟩
  · rw [if_neg hge] at h
    cases k
    · simp only [Bool.not_false, if_true] at h
      cases h
      left
      exact ⟨(by show (-ENOMEM : Int) < 0; decide), rfl, rfl⟩
    · simp only [Bool.not_true, Bool.false_eq_true, if_false, hb, memcpy_from] at h
      by_cases hin : 0 ≤ fpos ∧ fpos + (n : Int) ≤ (b.length : Int)
      · rw [if_pos hin] at h
        simp only [] at h
        have hdl : ((b.drop fpos.toNat).take n).length = n := by
          simp only [List.length_take, List.length_drop]; omega
        by_cases hc : copy_to_user ulen ((b.drop fpos.toNat).take n) ≠ 0
        · rw [if_pos hc] at h
          cases h
          left
          exact ⟨(by show (-EFAULT : Int) < 0; decide), rfl, rfl⟩
        · rw [if_neg hc] at h
          simp only [Option.some.injEq] at h
          have hs1 : toS64 (n : Int) = (n : Int) := toS64_of_range _ (by omega) (by omega)
          have hs2 : toS64 (fpos + (n : Int)) = fpos + (n : Int) :=
            toS64_of_range _ (by omega) (by omega)
          rw [hs1, hs2] at h
          right; right
          have hu : n ≤ ulen := by
            unfold copy_to_user at hc
            rw [hdl] at hc
            omega
          exact ⟨hin.1, by omega, rfl, hu, by omega, h.symm⟩
      · rw [if_neg hin] at h
        cases h

/-- A read never assigns a global: the module state it returns is the one it
was given. -/
theorem read_module (BUFSIZE : Nat) (m : Module) (k : Bool) (ulen count : Nat) (fpos : Int)
    (r : IoResult) (h : plp_kmem_read BUFSIZE m k ulen count fpos = some r) :
    r.module = m := by
  unfold plp_kmem_read at h
  simp only [] at h
  split at h
  · rw [← Option.some.inj h]
  · split at h
    · rw [← Option.some.inj h]
    · split at h
      · cases h
      · split at h <;> rw [← Option.some.inj h]

/-! ## The I/O path: transfer length, end of device, failures -/

/-- C1: for every offset `o` with `0 <= o < capacity` and every count for which
`o + count` does not wrap around 64 bits, a read and a write whose transfer
buffer is allocated and whose user copy succeeds (the computed transfer length
fits the user region) return exactly `n = min(count, capacity - o)` and leave
the cursor at `o + n`. The Buffer Store is a region of `capacity` bytes. -/
theorem transfer_length_and_cursor (BUFSIZE : Nat) (m : Module) (b : List UInt8)
    (o count : Nat) (hcap : BUFSIZE < 2 ^ 63) (hb : m.plp_kmem_buffer = some b)
    (hlen : b.length = BUFSIZE) (ho : o < BUFSIZE) (hwrap : o + count < 2 ^ 64) :
    (∀ ulen : Nat, clamp BUFSIZE (o : Int) count ≤ ulen →
      ∃ r, plp_kmem_read BUFSIZE m true ulen count (o : Int) = some r ∧
        r.ret = ((min count (BUFSIZE - o) : Nat) : Int) ∧
        r.ppos = (o : Int) + ((min count (BUFSIZE - o) : Nat) : Int)) ∧
    (∀ ubuf : List UInt8, clamp BUFSIZE (o : Int) count ≤ ubuf.length →
      ∃ r, plp_kmem_write BUFSIZE m true ubuf count (o : Int) = some r ∧
        r.ret = ((min count (BUFSIZE - o) : Nat) : Int) ∧
        r.ppos = (o : Int) + ((min count (BUFSIZE - o) : Nat) : Int)) := by
  have hc : clamp BUFSIZE (o : Int) count = min count (BUFSIZE - o) :=
    clamp_nat BUFSIZE o count (by omega) ho hwrap
  constructor
  · intro ulen hu
    rw [hc] at hu
    exact ⟨_, read_ok BUFSIZE m b o count ulen hcap hb hlen ho hwrap hu, rfl, rfl⟩
  · intro ubuf hu
    rw [hc] at hu
    exact ⟨_, write_ok BUFSIZE m b ubuf o count hcap hb hlen ho hwrap hu, rfl, rfl⟩

/-- The scenario of the specification: with capacity 16, a 10-byte write of
`"HELLOWORLD"` at offset 10 returns 6 and leaves the cursor at 16. -/
theorem transfer_length_and_cursor_witness :
    ∃ r, plp_kmem_write 16 scenario16 true HELLOWORLD 10 ((10 : Nat) : Int) = some r ∧
      r.ret = 6 ∧ r.ppos = 16 :=
  (transfer_length_and_cursor 16 scenario16 (List.replicate 16 0) 10 10 (by decide) rfl
    (by decide) (by decide) (by decide)).2 HELLOWORLD (by decide)

/-- C3: for every offset at or past the capacity and every count, read
succeeds with 0 bytes and write fails with `-ENOSPC`; both leave the module
state (the Buffer Store included) and the cursor as they were, whatever the
allocator and the user region are. -/
theorem at_or_past_capacity (BUFSIZE : Nat) (m : Module) (fpos : Int) (count : Nat)
    (kmalloc_ok : Bool) (ulen : Nat) (ubuf : List UInt8) (h : (BUFSIZE : Int) ≤ fpos) :
    plp_kmem_read BUFSIZE m kmalloc_ok ulen count fpos = some ⟨0, m, fpos, []⟩ ∧
    plp_kmem_write BUFSIZE m kmalloc_ok ubuf count fpos = some ⟨-ENOSPC, m, fpos, []⟩ := by
  have hge : fpos ≥ (BUFSIZE : Int) := h
  constructor
  · simp only [plp_kmem_read, hge, if_true]
  · simp only [plp_kmem_write, hge, if_true]

/-- A read and a write at offset `capacity` of the source's 1 MiB buffer. -/
theorem at_or_past_capacity_witness :
    plp_kmem_read PLP_KMEM_BUFSIZE (Module.load 1) true 4 4 (PLP_KMEM_BUFSIZE : Int) =
      some ⟨0, Module.load 1, (PLP_KMEM_BUFSIZE : Int), []⟩ ∧
    plp_kmem_write PLP_KMEM_BUFSIZE (Module.load 1) true [1, 2, 3, 4] 4 (PLP_KMEM_BUFSIZE : Int) =
      some ⟨-ENOSPC, Module.load 1, (PLP_KMEM_BUFSIZE : Int), []⟩ :=
  at_or_past_capacity PLP_KMEM_BUFSIZE (Module.load 1) (PLP_KMEM_BUFSIZE : Int) 4 true 4
    [1, 2, 3, 4] (le_refl _)

/-- C2: write-then-read round trip. Over any Buffer Store content, for every
offset `o` and byte sequence `B` with `o + len(B) <= capacity`, whenever a write
of `B` at `o` succeeds and the read of `len(B)` bytes at `o` that follows
succeeds, both return `len(B)` and the read hands back exactly `B`; and for
`o < capacity` both calls do succeed once the transfer buffers are allocated and
the user regions are large enough. -/
theorem write_then_read_round_trip (BUFSIZE : Nat) (m : Module) (b B tail : List UInt8)
    (o : Nat) (hcap : BUFSIZE < 2 ^ 63) (hb : m.plp_kmem_buffer = some b)
    (hlen : b.length = BUFSIZE) (hfit : o + B.length ≤ BUFSIZE) :
    (∀ (k1 k2 : Bool) (ulen : Nat) (r1 r2 : IoResult),
      plp_kmem_write BUFSIZE m k1 (B ++ tail) B.length (o : Int) = some r1 → 0 ≤ r1.ret →
      plp_kmem_read BUFSIZE r1.module k2 ulen B.length (o : Int) = some r2 → 0 ≤ r2.ret →
      r1.ret = (B.length : Int) ∧ r2.ret = (B.length : Int) ∧ r2.user = B) ∧
    (o < BUFSIZE → ∀ ulen : Nat, B.length ≤ ulen → ∃ r1 r2 : IoResult,
      plp_kmem_write BUFSIZE m true (B ++ tail) B.length (o : Int) = some r1 ∧ 0 ≤ r1.ret ∧
      plp_kmem_read BUFSIZE r1.module true ulen B.length (o : Int) = some r2 ∧ 0 ≤ r2.ret) := by
  have htake : (B ++ tail).take B.length = B := List.take_left B tail
  have hsp : (b.take o ++ B ++ b.drop (o + B.length)).length = BUFSIZE := by
    rw [splice_length b B o (by omega), hlen]
  constructor
  · intro k1 k2 ulen r1 r2 h1 hr1 h2 hr2
    rcases write_cases BUFSIZE m b (B ++ tail) k1 B.length (o : Int) r1 hcap hb hlen h1 with
      ⟨hneg, _, _⟩ | ⟨_, hlt, _, _, _, hr⟩
    · omega
    · have ho : o < BUFSIZE := by omega
      have hc : clamp BUFSIZE (o : Int) B.length = B.length := by
        rw [clamp_nat BUFSIZE o B.length (by omega) ho (by omega)]
        omega
      rw [hc, htake, Int.toNat_ofNat] at hr
      subst hr
      rcases read_cases BUFSIZE _ (b.take o ++ B ++ b.drop (o + B.length)) k2 ulen B.length
          (o : Int) r2 hcap rfl hsp h2 with ⟨hneg, _, _⟩ | ⟨hge, _⟩ | ⟨_, _, _, _, _, hr⟩
      · omega
      · omega
      · rw [hc, Int.toNat_ofNat, splice_read_back b B o (by omega)] at hr
        subst hr
        exact ⟨rfl, rfl, rfl⟩
  · intro ho ulen hu
    have hw := write_ok BUFSIZE m b (B ++ tail) o B.length hcap hb hlen ho (by omega)
      (by rw [List.length_append]; omega)
    have hmin : min B.length (BUFSIZE - o) = B.length := by omega
    rw [hmin, htake] at hw
    have hr := read_ok BUFSIZE
      { m with plp_kmem_buffer := some (b.take o ++ B ++ b.drop (o + B.length)) }
      (b.take o ++ B ++ b.drop (o + B.length)) o B.length ulen hcap rfl hsp ho (by omega)
      (by omega)
    exact ⟨_, _, hw, by show (0 : Int) ≤ (B.length : Int); omega, hr,
      by show (0 : Int) ≤ ((min B.length (BUFSIZE - o) : Nat) : Int); omega⟩

/-- The scenario of the specification: with capacity 16, writing
`"HELLOWORLD"` at offset 0 returns 10 and reading 10 bytes at offset 0 returns
`"HELLOWORLD"`. -/
theorem write_then_read_round_trip_witness :
    plp_kmem_write 16 scenario16 true (HELLOWORLD ++ []) HELLOWORLD.length ((0 : Nat) : Int) =
      some scenario16_write ∧
    plp_kmem_read 16 scenario16_write.module true 10 HELLOWORLD.length ((0 : Nat) : Int) =
      some scenario16_read ∧
    (scenario16_write.ret = (HELLOWORLD.length : Int) ∧
      scenario16_read.ret = (HELLOWORLD.length : Int) ∧ scenario16_read.user = HELLOWORLD) :=
  ⟨by decide, by decide,
    (write_then_read_round_trip 16 scenario16 (List.replicate 16 0) HELLOWORLD [] 0
      (by decide) rfl (by decide) (by decide)).1 true true 10 scenario16_write scenario16_read
      (by decide) (by decide) (by decide) (by decide)⟩

/-- C4: failure atomicity of the I/O path, for an offset below the capacity.
When the transfer buffer is not allocated, read and write return `-ENOMEM`;
when the copy from the caller fails, write returns `-EFAULT`; when the copy to
the caller fails, read returns `-EFAULT`: each time with the module state (so
every byte of the Buffer Store) and the cursor as before the call. Conversely,
over a Buffer Store of `capacity` bytes, every call that returns `-ENOMEM` or
`-EFAULT` has left state and cursor alone. -/
theorem failure_atomicity (BUFSIZE : Nat) (m : Module) (fpos : Int) (count : Nat)
    (hlt : fpos < (BUFSIZE : Int)) :
    (∀ ulen : Nat,
      plp_kmem_read BUFSIZE m false ulen count fpos = some ⟨-ENOMEM, m, fpos, []⟩) ∧
    (∀ ubuf : List UInt8,
      plp_kmem_write BUFSIZE m false ubuf count fpos = some ⟨-ENOMEM, m, fpos, []⟩) ∧
    (∀ ubuf : List UInt8, copy_from_user ubuf (clamp BUFSIZE fpos count) = none →
      plp_kmem_write BUFSIZE m true ubuf count fpos = some ⟨-EFAULT, m, fpos, []⟩) ∧
    (∀ (ulen : Nat) (data : List UInt8),
      memcpy_from m.plp_kmem_buffer fpos (clamp BUFSIZE fpos count) = some data →
      copy_to_user ulen data ≠ 0 →
      plp_kmem_read BUFSIZE m true ulen count fpos = some ⟨-EFAULT, m, fpos, data.take ulen⟩) ∧
    (∀ b : List UInt8, m.plp_kmem_buffer = some b → b.length = BUFSIZE → BUFSIZE < 2 ^ 63 →
      ∀ (k : Bool) (ulen : Nat) (ubuf : List UInt8) (r : IoResult),
        (plp_kmem_read BUFSIZE m k ulen count fpos = some r ∨
          plp_kmem_write BUFSIZE m k ubuf count fpos = some r) →
        (r.ret = -ENOMEM ∨ r.ret = -EFAULT) → r.module = m ∧ r.ppos = fpos) := by
  have hnot : ¬ (fpos ≥ (BUFSIZE : Int)) := by omega
  refine ⟨?_, ?_, ?_, ?_, ?_⟩
  · intro ulen
    simp only [plp_kmem_read, hnot, if_false, Bool.not_false, if_true]
  · intro ubuf
    simp only [plp_kmem_write, hnot, if_false, Bool.not_false, if_true]
  · intro ubuf hc
    simp only [plp_kmem_write, hnot, if_false, Bool.not_true, Bool.false_eq_true, hc]
  · intro ulen data hd hc
    simp only [plp_kmem_read, hnot, if_false, Bool.not_true, Bool.false_eq_true, hd]
    rw [if_pos hc]
  · intro b hb hlen hcap k ulen ubuf r hcall herr
    have hneg : r.ret < 0 := by
      rcases herr with h | h <;> rw [h] <;> decide
    rcases hcall with h | h
    · rcases read_cases BUFSIZE m b k ulen count fpos r hcap hb hlen h with
        ⟨_, hm, hp⟩ | ⟨hge, _⟩ | ⟨_, _, _, _, _, hr⟩
      · exact ⟨hm, hp⟩
      · omega
      · rw [hr] at hneg
        simp only at hneg
        omega
    · rcases write_cases BUFSIZE m b ubuf k count fpos r hcap hb hlen h with
        ⟨_, hm, hp⟩ | ⟨_, _, _, _, _, hr⟩
      · exact ⟨hm, hp⟩
      · rw [hr] at hneg
        simp only at hneg
        omega

/-- A 10-byte write at offset 10 of the 16-byte scenario whose caller has only
three readable bytes: `-EFAULT`, nothing stored, cursor still 10. -/
theorem failure_atomicity_witness :
    plp_kmem_write 16 scenario16 true [1, 2, 3] 10 10 = some ⟨-EFAULT, scenario16, 10, []⟩ :=
  (failure_atomicity 16 scenario16 10 10 (by decide)).2.2.1 [1, 2, 3] (by decide)

/-- C10: write frame. Over a Buffer Store of `capacity` bytes, a write that
returns a count `n >= 0` leaves a buffer of the same length whose bytes at
`[o, o+n)` are the first `n` bytes the caller supplied and whose bytes at every
other index are the ones from before the call; a read, whatever it returns,
leaves the module state, and so every byte of the Buffer Store, unchanged. -/
theorem write_frame (BUFSIZE : Nat) (m : Module) (b : List UInt8)
    (hcap : BUFSIZE < 2 ^ 63) (hb : m.plp_kmem_buffer = some b) (hlen : b.length = BUFSIZE) :
    (∀ (k : Bool) (ubuf : List UInt8) (count : Nat) (fpos : Int) (r : IoResult),
      plp_kmem_write BUFSIZE m k ubuf count fpos = some r → 0 ≤ r.ret →
      ∃ b2 : List UInt8, r.module = { m with plp_kmem_buffer := some b2 } ∧
        b2.length = b.length ∧ 0 ≤ fpos ∧ fpos < (BUFSIZE : Int) ∧
        r.ret.toNat ≤ ubuf.length ∧ fpos.toNat + r.ret.toNat ≤ BUFSIZE ∧
        (∀ j : Nat, j < r.ret.toNat → b2[fpos.toNat + j]? = ubuf[j]?) ∧
        (∀ i : Nat, i < fpos.toNat ∨ fpos.toNat + r.ret.toNat ≤ i → b2[i]? = b[i]?)) ∧
    (∀ (k : Bool) (ulen count : Nat) (fpos : Int) (r : IoResult),
      plp_kmem_read BUFSIZE m k ulen count fpos = some r → r.module = m) := by
  constructor
  · intro k ubuf count fpos r h hret
    rcases write_cases BUFSIZE m b ubuf k count fpos r hcap hb hlen h with
      ⟨hneg, _, _⟩ | ⟨h0, hlt, _, hu, hin, hr⟩
    · omega
    · generalize clamp BUFSIZE fpos count = n at hu hin hr
      have htl : (ubuf.take n).length = n := by
        simp only [List.length_take]; omega
      have hfit : fpos.toNat + (ubuf.take n).length ≤ b.length := by omega
      subst hr
      refine ⟨b.take fpos.toNat ++ ubuf.take n ++ b.drop (fpos.toNat + n), rfl, ?_, h0, hlt,
        ?_, ?_, ?_, ?_⟩
      · have := splice_length b (ubuf.take n) fpos.toNat hfit
        rw [htl] at this
        exact this
      · simpa using hu
      · simpa using hin
      · intro j hj
        have hj2 : j < n := by simpa using hj
        have := splice_get_inside b (ubuf.take n) fpos.toNat j hfit (by omega)
        rw [htl] at this
        rw [this, List.getElem?_take_of_lt hj2]
      · intro i hi
        have hi2 : i < fpos.toNat ∨ fpos.toNat + n ≤ i := by simpa using hi
        rcases hi2 with hi2 | hi2
        · have := splice_get_before b (ubuf.take n) fpos.toNat i hfit hi2
          rw [htl] at this
          exact this
        · have := splice_get_after b (ubuf.take n) fpos.toNat i hfit (by omega)
          rw [htl] at this
          exact this
  · intro k ulen count fpos r h
    exact read_module BUFSIZE m k ulen count fpos r h

/-- The scenario of the specification: the 10-byte write at offset 10 of the
16-byte buffer stores `"HELLOW"` at indices 10..15 and nothing elsewhere. -/
theorem write_frame_witness :
    plp_kmem_write 16 scenario16 true HELLOWORLD 10 10 = some scenario16_clamped ∧
    ∃ b2 : List UInt8,
      scenario16_clamped.module = { scenario16 with plp_kmem_buffer := some b2 } ∧
      b2.length = (List.replicate 16 (0 : UInt8)).length ∧ (0 : Int) ≤ 10 ∧
      (10 : Int) < ((16 : Nat) : Int) ∧
      scenario16_clamped.ret.toNat ≤ HELLOWORLD.length ∧
      (10 : Int).toNat + scenario16_clamped.ret.toNat ≤ 16 ∧
      (∀ j : Nat, j < scenario16_clamped.ret.toNat →
        b2[(10 : Int).toNat + j]? = HELLOWORLD[j]?) ∧
      (∀ i : Nat, i < (10 : Int).toNat ∨ (10 : Int).toNat + scenario16_clamped.ret.toNat ≤ i →
        b2[i]? = (List.replicate 16 (0 : UInt8))[i]?) :=
  ⟨by decide,
    (write_frame 16 scenario16 (List.replicate 16 0) (by decide) rfl (by decide)).1 true
      HELLOWORLD 10 10 scenario16_clamped (by decide) (by decide)⟩

/-! ## The bound check of the two calls -/

/-- C9, refuted at the last byte of the 1 MiB buffer: a 1-byte write at offset
`capacity - 1 = 1048575` returns 1 (which is `min(1, capacity - offset)`),
moves the cursor to `capacity` and stores the caller's byte at index
`capacity - 1`. -/
theorem write_reaches_last_byte :
    PLP_KMEM_BUFSIZE - 1 = 1048575 ∧
    ∃ (r : IoResult) (b2 : List UInt8),
      plp_kmem_write PLP_KMEM_BUFSIZE zeroed true [171] 1 ((1048575 : Nat) : Int) = some r ∧
      r.ret = 1 ∧ r.ppos = 1048576 ∧ r.module.plp_kmem_buffer = some b2 ∧
      b2[1048575]? = some 171 := by
  have hw := write_ok PLP_KMEM_BUFSIZE zeroed (List.replicate PLP_KMEM_BUFSIZE 0) [171]
    1048575 1 (by decide) rfl (List.length_replicate _ _) (by decide) (by decide) (by decide)
  have hmin : min 1 (PLP_KMEM_BUFSIZE - 1048575) = 1 := by decide
  rw [hmin] at hw
  have hg := splice_get_inside (List.replicate PLP_KMEM_BUFSIZE 0) [171] 1048575 0
    (by rw [List.length_replicate]; decide) (by decide)
  exact ⟨by decide, _, _, hw, rfl, rfl, rfl, hg⟩

/-- C9, amended: the check `fpos + bytes >= BUFSIZE` does not clamp early. For
every offset below the capacity and every count without 64-bit wrap the
computed transfer length is exactly `min(count, capacity - offset)`, and every
write that reaches the end of the buffer (`offset + count >= capacity`, transfer
buffer allocated, caller's bytes readable) returns `capacity - offset` and
stores the caller's byte into the last valid index `capacity - 1`. -/
theorem write_clamp_is_exact (BUFSIZE o count : Nat) (hcap : BUFSIZE < 2 ^ 63)
    (ho : o < BUFSIZE) (hwrap : o + count < 2 ^ 64) :
    clamp BUFSIZE (o : Int) count = min count (BUFSIZE - o) ∧
    (∀ (m : Module) (b ubuf : List UInt8), m.plp_kmem_buffer = some b → b.length = BUFSIZE →
      BUFSIZE ≤ o + count → BUFSIZE - o ≤ ubuf.length →
      ∃ (r : IoResult) (b2 : List UInt8),
        plp_kmem_write BUFSIZE m true ubuf count (o : Int) = some r ∧
        r.ret = ((BUFSIZE - o : Nat) : Int) ∧ r.module.plp_kmem_buffer = some b2 ∧
        BUFSIZE - 1 - o < ubuf.length ∧ b2[BUFSIZE - 1]? = ubuf[BUFSIZE - 1 - o]?) := by
  refine ⟨clamp_nat BUFSIZE o count (by omega) ho hwrap, ?_⟩
  intro m b ubuf hb hlen hreach hu
  have hmin : min count (BUFSIZE - o) = BUFSIZE - o := by omega
  have hw := write_ok BUFSIZE m b ubuf o count hcap hb hlen ho hwrap (by omega)
  rw [hmin] at hw
  have htl : (ubuf.take (BUFSIZE - o)).length = BUFSIZE - o := by
    simp only [List.length_take]; omega
  have hg := splice_get_inside b (ubuf.take (BUFSIZE - o)) o (BUFSIZE - 1 - o)
    (by omega) (by omega)
  rw [htl, List.getElem?_take_of_lt (by omega)] at hg
  have hidx : o + (BUFSIZE - 1 - o) = BUFSIZE - 1 := by omega
  rw [hidx] at hg
  exact ⟨_, _, hw, rfl, rfl, by omega, hg⟩

/-- The scenario's 16-byte buffer: the 10-byte write of `"HELLOWORLD"` at offset
10 computes the length 6, returns 6 and stores the caller's sixth byte at the
last index 15. -/
theorem write_clamp_is_exact_witness :
    clamp 16 ((10 : Nat) : Int) 10 = 6 ∧
    ∃ (r : IoResult) (b2 : List UInt8),
      plp_kmem_write 16 scenario16 true HELLOWORLD 10 ((10 : Nat) : Int) = some r ∧
      r.ret = 6 ∧ r.module.plp_kmem_buffer = some b2 ∧
      5 < HELLOWORLD.length ∧ b2[15]? = HELLOWORLD[5]? :=
  ⟨(write_clamp_is_exact 16 10 10 (by decide) (by decide) (by decide)).1,
    (write_clamp_is_exact 16 10 10 (by decide) (by decide) (by decide)).2 scenario16
      (List.replicate 16 0) HELLOWORLD rfl (by decide) (by decide) (by decide)⟩

/-! ## The lifecycle -/

/-- C6, at the input "identity allocation fails": `plp_kmem_init` returns 1 and
the `C_OBJ` block allocated at its start is still allocated and still linked on
`dev_list` (the branch jumps to `error` without `kfree`). The sibling branch for
a failing `cdev_add` does free the block, but releases one device number only,
so with `ndevices = 2` the number 501 stays allocated; and the branch for a
failing `class_create` passes the null `plp_kmem_cdev` to `cdev_del`. -/
theorem init_failure_leaves_resources :
    plp_kmem_init ⟨true, none, true, true⟩ (Module.load 1) =
      some (1, { Module.load 1 with my_dev := true, dev_list := 1 }) ∧
    (plp_kmem_init ⟨true, some 500, false, true⟩ (Module.load 2)).map
      (fun r => (r.1, r.2.my_dev, r.2.chrdev_ids)) = some (1, false, [501]) ∧
    plp_kmem_init ⟨true, some 500, true, false⟩ (Module.load 1) = none := by
  decide

/-- C7, at a load where the kernel grants everything: `plp_kmem_init` returns 0
and `plp_kmem_buffer` is still the null pointer, so a 1-byte read at offset 0
that follows copies from a null pointer. No statement of the module assigns
`plp_kmem_buffer`: whatever the kernel answers and whatever `ndevices` is, the
pointer is null in every state `plp_kmem_init` returns. -/
theorem init_success_leaves_buffer_null :
    (plp_kmem_init (InitEnv.granting 500) (Module.load 1)).map
      (fun r => (r.1, r.2.plp_kmem_buffer)) = some (0, none) ∧
    (plp_kmem_init (InitEnv.granting 500) (Module.load 1)).bind
      (fun r => plp_kmem_read PLP_KMEM_BUFSIZE r.2 true 1 1 0) = none ∧
    ∀ (e : InitEnv) (n : Int),
      (plp_kmem_init e (Module.load n)).bind (fun r => r.2.plp_kmem_buffer) = none := by
  refine ⟨by decide, by decide, ?_⟩
  intro e n
  rcases e with ⟨k, a, c, cl⟩
  cases k <;> cases a <;> cases c <;> cases cl <;> rfl

/-- C8, at `ndevices = 2`: a successful `plp_kmem_init` allocates the device
numbers 500 and 501, and `plp_kmem_exit` after it unregisters one number only;
501 stays allocated. The one `cdev_add` is matched by one `cdev_del`. -/
theorem exit_releases_one_identity_only :
    (plp_kmem_init (InitEnv.granting 500) (Module.load 2)).map
      (fun r => (r.1, r.2.chrdev_ids)) = some (0, [500, 501]) ∧
    ((plp_kmem_init (InitEnv.granting 500) (Module.load 2)).bind
      (fun r => plp_kmem_exit r.2)).map
      (fun m => (m.chrdev_ids, m.cdev_registered, m.cdev_add_calls, m.cdev_del_calls)) =
      some ([501], false, 1, 1) := by
  decide

end PseudoClass
